import Mathlib

/-!
Shallow embedding of the valence chunk-layer core: loaded chunks with a
lazily built, invalidation-tracked cache of the chunk initialization
packet, and the spatial chunk index.  Definitions are translated from
`crates/valence_server/src/layer_old/chunk/loaded.rs` and
`crates/valence_server/src/dimension_layer/index.rs`; the chunk storage,
the paletted section codec and the packet writer live in modules of the
repository that are external to those two files and are modelled from the
specification.
-/

namespace Valence

/-- Modelled from the spec: variable-length integer encoding used by the
external wire format (7 data bits per byte, continuation bit on all but the
last byte). -/
def encodeVarInt (n : Nat) : List Nat :=
  if h : n < 128 then [n] else (n % 128 + 128) :: encodeVarInt (n / 128)
termination_by n
decreasing_by
  exact Nat.div_lt_self (by omega) (by omega)

/-- Modelled from the spec: big-endian two-byte encoding of a 16-bit count
(the per-section non-air block count on the wire). -/
def encodeU16 (n : Nat) : List Nat := [n / 256 % 256, n % 256]

/-- Modelled from the spec: big-endian four-byte encoding of a 32-bit signed
integer (chunk position coordinates on the wire). -/
def encodeInt32 (i : Int) : List Nat :=
  let n := (i % 4294967296).toNat
  [n / 16777216 % 256, n / 65536 % 256, n / 256 % 256, n % 256]

/-- Modelled from the spec: the helper `bit_width` of the chunk module (not
under the two embedded files): the number of bits needed to represent `n`. -/
def bit_width (n : Nat) : Nat := if n = 0 then 0 else Nat.log2 n + 1

/-- Modelled from the spec: first-occurrence deduplication, used to build the
palette table of distinct values present in a section. -/
def dedup (l : List Nat) : List Nat :=
  l.foldl (fun acc a => if a ∈ acc then acc else acc ++ [a]) []

/-- Modelled from the spec: split a list into chunks of `n` entries (the
fixed-size machine words of the bit-packed encoding; an entry never spans
two words). -/
def chunksOf (n : Nat) (l : List Nat) : List (List Nat) :=
  if h : n = 0 ∨ l = [] then [] else l.take n :: chunksOf n (l.drop n)
termination_by l.length
decreasing_by
  simp only [List.length_drop]
  have hn : n ≠ 0 := fun hn => h (Or.inl hn)
  have hl : l ≠ [] := fun hl => h (Or.inr hl)
  have := List.length_pos.mpr hl
  omega

/-- Modelled from the spec: pack one word's worth of entries at `w` bits per
entry, first entry in the least significant bits. -/
def packWord (w : Nat) (entries : List Nat) : Nat :=
  entries.foldr (fun e acc => acc * 2 ^ w + e % 2 ^ w) 0

/-- Modelled from the spec: serialize a 64-bit word as eight big-endian
bytes. -/
def wordToBytes (word : Nat) : List Nat :=
  (List.range 8).map fun i => word / 2 ^ (8 * (7 - i)) % 256

/-- Modelled from the spec: bit-pack `vals` at `w` bits per entry into 64-bit
words (padding bits left unused rather than splitting an entry), emitted as
bytes. -/
def packBits (w : Nat) (vals : List Nat) : List Nat :=
  if w = 0 then []
  else ((chunksOf (64 / w) vals).map fun c => wordToBytes (packWord w c)).flatten

/-- Modelled from the spec: the Paletted Section Codec (§4.1).  Emits the
chosen bits-per-entry, then in palette mode the palette table followed by the
bit-packed palette indices, or in direct mode (chosen width above `maxBits`)
the bit-packed raw ids at `directBits` per entry. -/
def encode_mc_format (vals : List Nat) (minBits maxBits directBits : Nat) :
    List Nat :=
  let palette := dedup vals
  let bits := max minBits (bit_width (palette.length - 1))
  if bits ≤ maxBits then
    bits :: (encodeVarInt palette.length ++ (palette.map encodeVarInt).flatten
      ++ packBits bits (vals.map fun v => palette.indexOf v))
  else
    directBits :: packBits directBits vals

/-- Modelled from the spec: the opaque structured block-entity payload
(NBT compound), treated as an immutable blob by this core. -/
abbrev Compound := List Nat

/-- Number of blocks in one vertical section (16 × 16 × 16). -/
def SECTION_BLOCK_COUNT : Nat := 4096

/-- Modelled from the spec: one vertical section of chunk storage — a
paletted container of block states (one per block) and a parallel paletted
container of biome values (one per coarser 4 × 4 × 4 cell). -/
structure Section where
  block_states : List Nat
  biomes : List Nat
deriving DecidableEq

/-- Modelled from the spec: a default section is all air (raw id 0) with the
default biome (index 0). -/
def Section.default : Section :=
  ⟨List.replicate SECTION_BLOCK_COUNT 0, List.replicate 64 0⟩

/-- Modelled from the spec: the per-section non-air block count, needed by
packet assembly (default block state 0 is air). -/
def Section.count_non_air_blocks (s : Section) : Nat :=
  (s.block_states.filter fun b => b ≠ 0).length

/-- Modelled from the spec: Chunk Storage — an ordered sequence of vertical
sections plus a sparse mapping (ordered by flattened local coordinate, as a
B-tree map iterates) from flattened local coordinate to block-entity
payload. -/
structure Chunk where
  sections : List Section
  block_entities : List (Nat × Compound)
deriving DecidableEq

/-- Modelled from the spec: `Chunk::new()` — an empty chunk of height 0. -/
def Chunk.new : Chunk := ⟨[], []⟩

/-- Modelled from the spec: a chunk of the given height, all sections
default. -/
def Chunk.with_height (h : Nat) : Chunk :=
  ⟨List.replicate (h / 16) Section.default, []⟩

/-- The chunk's height: 16 blocks per section. -/
def Chunk.height (c : Chunk) : Nat := c.sections.length * 16

/-- Modelled from the spec: resize to a new height, truncating or extending
with default sections and preserving overlapping data. -/
def Chunk.set_height (c : Chunk) (h : Nat) : Chunk :=
  ⟨c.sections.take (h / 16)
      ++ List.replicate (h / 16 - c.sections.length) Section.default,
    c.block_entities⟩

/-- Flattened in-section offset of a local block coordinate
(`x + z * 16 + (y mod 16) * 256`). -/
def blockOffset (x y z : Nat) : Nat := x + z * 16 + y % 16 * 256

/-- Flattened in-section offset of a local biome cell (4 × 4 × 4 cells). -/
def biomeOffset (x y z : Nat) : Nat := x / 4 + z / 4 * 4 + y % 16 / 4 * 16

/-- Replace section `i` of the chunk by `f` of its current value (no-op when
`i` is out of range). -/
def Chunk.updateSection (c : Chunk) (i : Nat) (f : Section → Section) :
    Chunk :=
  { c with sections := c.sections.set i (f (c.sections.getD i Section.default)) }

/-- Modelled from the spec: read a single block state at a local
coordinate. -/
def Chunk.block_state (c : Chunk) (x y z : Nat) : Nat :=
  ((c.sections.getD (y / 16) Section.default).block_states).getD
    (blockOffset x y z) 0

/-- Modelled from the spec: write a single block state at a local coordinate,
returning the previous value. -/
def Chunk.set_block_state (c : Chunk) (x y z b : Nat) : Nat × Chunk :=
  (c.block_state x y z,
    c.updateSection (y / 16) fun s =>
      { s with block_states := s.block_states.set (blockOffset x y z) b })

/-- Modelled from the spec: fill an entire vertical section uniformly with
one block state. -/
def Chunk.fill_block_state_section (c : Chunk) (sect_y : Nat) (b : Nat) :
    Chunk :=
  c.updateSection sect_y fun s =>
    { s with block_states := List.replicate SECTION_BLOCK_COUNT b }

/-- Modelled from the spec: read a single biome at a local coordinate. -/
def Chunk.biome (c : Chunk) (x y z : Nat) : Nat :=
  ((c.sections.getD (y / 16) Section.default).biomes).getD
    (biomeOffset x y z) 0

/-- Modelled from the spec: write a single biome at a local coordinate,
returning the previous value. -/
def Chunk.set_biome (c : Chunk) (x y z bi : Nat) : Nat × Chunk :=
  (c.biome x y z,
    c.updateSection (y / 16) fun s =>
      { s with biomes := s.biomes.set (biomeOffset x y z) bi })

/-- Modelled from the spec: fill an entire vertical section uniformly with
one biome. -/
def Chunk.fill_biome_section (c : Chunk) (sect_y : Nat) (bi : Nat) : Chunk :=
  c.updateSection sect_y fun s => { s with biomes := List.replicate 64 bi }

/-- Flattened block-entity key of a local coordinate, matching the decoding
`x = idx % 16`, `z = idx / 16 % 16`, `y = idx / 16 / 16` in packet
assembly. -/
def beIdx (x y z : Nat) : Nat := x + z * 16 + y * 256

/-- Look a key up in an ordered association list. -/
def assocLookup (l : List (Nat × Compound)) (k : Nat) : Option Compound :=
  match l with
  | [] => none
  | (kk, v) :: rest => if kk = k then some v else assocLookup rest k

/-- Insert a key into an association list ordered by key, replacing an
existing binding. -/
def assocInsert (l : List (Nat × Compound)) (k : Nat) (v : Compound) :
    List (Nat × Compound) :=
  match l with
  | [] => [(k, v)]
  | (kk, vv) :: rest =>
    if k < kk then (k, v) :: (kk, vv) :: rest
    else if kk = k then (k, v) :: rest
    else (kk, vv) :: assocInsert rest k v

/-- Remove a key from an association list. -/
def assocRemove (l : List (Nat × Compound)) (k : Nat) :
    List (Nat × Compound) :=
  match l with
  | [] => []
  | (kk, vv) :: rest =>
    if kk = k then rest else (kk, vv) :: assocRemove rest k

/-- Modelled from the spec: get the block-entity payload at a coordinate. -/
def Chunk.block_entity (c : Chunk) (x y z : Nat) : Option Compound :=
  assocLookup c.block_entities (beIdx x y z)

/-- Modelled from the spec: set (`some`) or clear (`none`) the block-entity
payload at a coordinate, returning the previous payload. -/
def Chunk.set_block_entity (c : Chunk) (x y z : Nat)
    (block_entity : Option Compound) : Option Compound × Chunk :=
  (c.block_entity x y z,
    { c with
      block_entities :=
        match block_entity with
        | some v => assocInsert c.block_entities (beIdx x y z) v
        | none => assocRemove c.block_entities (beIdx x y z) })

/-- Modelled from the spec: remove every block-entity payload. -/
def Chunk.clear_block_entities (c : Chunk) : Chunk :=
  { c with block_entities := [] }

/-- Modelled from the spec: the external block-state domain (§6) — the
maximum raw block-state id (drives the direct-encoding bit width) and the
block-entity-kind lookup per block state (drives which coordinates may carry
a payload). -/
structure BlockRegistry where
  max_raw : Nat
  block_entity_kind : Nat → Option Nat

/-- A chunk position: a pair of signed integers in the horizontal grid. -/
abbrev ChunkPos := Int × Int

/-- Interpretation of an integer's low 16 bits as a signed 16-bit value: the
wrapping `as i16` cast. -/
def wrapI16 (n : Int) : Int := (n + 32768) % 65536 - 32768

/-- The per-layer parameters consumed by packet assembly: dimension height,
minimum Y (an `i32`, so constrained to its range), biome-registry size and
compression threshold. -/
structure ChunkLayerInfo where
  height : Nat
  min_y : Int
  min_y_isInt32 : -2147483648 ≤ min_y ∧ min_y < 2147483648
  biome_registry_len : Nat
  threshold : Int

/-- One block-entity record of the chunk initialization packet: the packed
horizontal coordinate byte (4 bits X, 4 bits Z), the absolute vertical
coordinate, the block-entity kind and the payload. -/
structure ChunkDataBlockEntity where
  packed_xz : Nat
  y : Int
  kind : Nat
  data : Compound
deriving DecidableEq

/-- The logical shape of the chunk initialization packet (`ChunkDataS2c`). -/
structure ChunkDataS2c where
  pos : ChunkPos
  heightmaps : Compound
  blocks_and_biomes : List Nat
  block_entities : List ChunkDataBlockEntity
  sky_light_mask : List Nat
  block_light_mask : List Nat
  empty_sky_light_mask : List Nat
  empty_block_light_mask : List Nat
  sky_light_arrays : List (List Nat)
  block_light_arrays : List (List Nat)
deriving DecidableEq

/-- The block state stored at a flattened block-entity key, as read by packet
assembly: section `idx / 16 / 16 / 16`, in-section offset
`idx mod SECTION_BLOCK_COUNT`. -/
def blockStateAtIdx (c : Chunk) (idx : Nat) : Nat :=
  ((c.sections.getD (idx / 16 / 16 / 16) Section.default).block_states).getD
    (idx % SECTION_BLOCK_COUNT) 0

/-- The per-entry closure of packet assembly's `filter_map` over the
block-entity mapping: decode the flattened coordinate, look up the
block-entity kind of the block state currently stored there, and — when it
is bearing — build the record, computing the vertical field with the
source's wrapping 16-bit casts (`y as i16 + info.min_y as i16`). -/
def blockEntityRecord (reg : BlockRegistry) (ch : Chunk)
    (info : ChunkLayerInfo) (e : Nat × Compound) :
    Option ChunkDataBlockEntity :=
  let idx := e.1
  let x := idx % 16
  let z := idx / 16 % 16
  let y : Nat := idx / 16 / 16
  let kind := reg.block_entity_kind (blockStateAtIdx ch idx)
  kind.map fun kind =>
    { packed_xz := x * 16 + z
      y := wrapI16 (wrapI16 (y : Int) + wrapI16 info.min_y)
      kind := kind
      data := e.2 }

/-- Packet assembly, translated from the body of
`LoadedChunk::write_init_packets`: empty heightmaps; per section in ascending
vertical order the non-air block count then the paletted block-state and
biome encodings; the block-entity records whose current block state is
block-entity-bearing; empty light masks and light arrays. -/
def assembleChunkData (reg : BlockRegistry) (ch : Chunk) (pos : ChunkPos)
    (info : ChunkLayerInfo) : ChunkDataS2c :=
  { pos := pos
    heightmaps := []
    blocks_and_biomes :=
      (ch.sections.map fun sect =>
        encodeU16 sect.count_non_air_blocks
          ++ encode_mc_format sect.block_states 4 8 (bit_width reg.max_raw)
          ++ encode_mc_format sect.biomes 0 3
              (bit_width (info.biome_registry_len - 1))).flatten
    block_entities :=
      ch.block_entities.filterMap (blockEntityRecord reg ch info)
    sky_light_mask := []
    block_light_mask := []
    empty_sky_light_mask := []
    empty_block_light_mask := []
    sky_light_arrays := []
    block_light_arrays := [] }

/-- Modelled from the spec: serialization of the opaque structured payload
(length then bytes). -/
def serializeCompound (c : Compound) : List Nat :=
  encodeVarInt c.length ++ c

/-- Modelled from the spec: serialization of one block-entity record. -/
def serializeBlockEntity (r : ChunkDataBlockEntity) : List Nat :=
  let yb := (r.y % 65536).toNat
  r.packed_xz :: [yb / 256 % 256, yb % 256]
    ++ encodeVarInt r.kind ++ serializeCompound r.data

/-- Modelled from the spec: the serialized body of the chunk initialization
packet, in the field order of §6. -/
def serializeChunkDataBody (p : ChunkDataS2c) : List Nat :=
  encodeVarInt 37
    ++ encodeInt32 p.pos.1 ++ encodeInt32 p.pos.2
    ++ serializeCompound p.heightmaps
    ++ encodeVarInt p.blocks_and_biomes.length ++ p.blocks_and_biomes
    ++ encodeVarInt p.block_entities.length
    ++ (p.block_entities.map serializeBlockEntity).flatten
    ++ encodeVarInt p.sky_light_mask.length ++ p.sky_light_mask
    ++ encodeVarInt p.block_light_mask.length ++ p.block_light_mask
    ++ encodeVarInt p.empty_sky_light_mask.length ++ p.empty_sky_light_mask
    ++ encodeVarInt p.empty_block_light_mask.length ++ p.empty_block_light_mask
    ++ encodeVarInt p.sky_light_arrays.length
    ++ (p.sky_light_arrays.map serializeCompound).flatten
    ++ encodeVarInt p.block_light_arrays.length
    ++ (p.block_light_arrays.map serializeCompound).flatten

/-- Modelled from the spec: the external packet writer — frames the packet
body with its length (the compression codec's internals are out of scope;
the threshold is its single configuration knob). -/
def write_packet (p : ChunkDataS2c) (threshold : Int) : List Nat :=
  let body := serializeChunkDataBody p
  let _ := threshold
  encodeVarInt body.length ++ body

/-- A loaded chunk (`LoadedChunk` of `loaded.rs`): chunk storage plus a
viewer count and the cached bytes of the chunk initialization packet; the
cache is considered invalidated if empty. -/
structure LoadedChunk where
  chunk : Chunk
  viewer_count : Nat
  cached_init_packets : List Nat
deriving DecidableEq

/-- `LoadedChunk::new`: viewer count 0, storage of the given height, empty
cache. -/
def LoadedChunk.new (height : Nat) : LoadedChunk :=
  ⟨Chunk.with_height height, 0, []⟩

/-- `ChunkOps::height` for a loaded chunk: the storage's height. -/
def LoadedChunk.height (c : LoadedChunk) : Nat := c.chunk.height

/-- `LoadedChunk::replace`: resize the incoming chunk to this chunk's height,
clear the cache, swap the storage and return the previous storage. -/
def LoadedChunk.replace (c : LoadedChunk) (chunk : Chunk) :
    Chunk × LoadedChunk :=
  let chunk := chunk.set_height c.height
  (c.chunk, { c with chunk := chunk, cached_init_packets := [] })

/-- `LoadedChunk::into_chunk`: yield the plain storage. -/
def LoadedChunk.into_chunk (c : LoadedChunk) : Chunk := c.chunk

/-- `LoadedChunk::inc_viewer_count`: a relaxed 32-bit increment. -/
def LoadedChunk.inc_viewer_count (c : LoadedChunk) : LoadedChunk :=
  { c with viewer_count := (c.viewer_count + 1) % 2 ^ 32 }

/-- `LoadedChunk::dec_viewer_count`: a relaxed 32-bit decrement; the second
component records whether the debug assertion `old ≠ 0` (no underflow)
passes. -/
def LoadedChunk.dec_viewer_count (c : LoadedChunk) : LoadedChunk × Bool :=
  ({ c with viewer_count := (c.viewer_count + (2 ^ 32 - 1)) % 2 ^ 32 },
    c.viewer_count != 0)

/-- `ChunkOps::set_block_state` for a loaded chunk: forward to storage, then
clear the cache only if the value actually changed; the previous value is
returned. -/
def LoadedChunk.set_block_state (c : LoadedChunk) (x y z b : Nat) :
    Nat × LoadedChunk :=
  let r := c.chunk.set_block_state x y z b
  if b ≠ r.1 then (r.1, { c with chunk := r.2, cached_init_packets := [] })
  else (r.1, { c with chunk := r.2 })

/-- `ChunkOps::fill_block_state_section` for a loaded chunk: forward to
storage and clear the cache unconditionally. -/
def LoadedChunk.fill_block_state_section (c : LoadedChunk) (sect_y b : Nat) :
    LoadedChunk :=
  { c with
    chunk := c.chunk.fill_block_state_section sect_y b
    cached_init_packets := [] }

/-- `ChunkOps::block_entity` for a loaded chunk. -/
def LoadedChunk.block_entity (c : LoadedChunk) (x y z : Nat) :
    Option Compound :=
  c.chunk.block_entity x y z

/-- `ChunkOps::block_entity_mut` for a loaded chunk: return the payload at
the coordinate and clear the cache exactly when one is present (the storage
itself is not modified by handing out the reference). -/
def LoadedChunk.block_entity_mut (c : LoadedChunk) (x y z : Nat) :
    Option Compound × LoadedChunk :=
  let res := c.chunk.block_entity x y z
  match res with
  | some v => (some v, { c with cached_init_packets := [] })
  | none => (none, c)

/-- `ChunkOps::set_block_entity` for a loaded chunk: clear the cache
unconditionally, then forward to storage, returning the previous payload. -/
def LoadedChunk.set_block_entity (c : LoadedChunk) (x y z : Nat)
    (block_entity : Option Compound) : Option Compound × LoadedChunk :=
  let r := c.chunk.set_block_entity x y z block_entity
  (r.1, { c with chunk := r.2, cached_init_packets := [] })

/-- `ChunkOps::clear_block_entities` for a loaded chunk: a no-op when there
are no block entities, otherwise clear them and the cache. -/
def LoadedChunk.clear_block_entities (c : LoadedChunk) : LoadedChunk :=
  if c.chunk.block_entities = [] then c
  else
    { c with
      chunk := c.chunk.clear_block_entities
      cached_init_packets := [] }

/-- `ChunkOps::biome` for a loaded chunk. -/
def LoadedChunk.biome (c : LoadedChunk) (x y z : Nat) : Nat :=
  c.chunk.biome x y z

/-- `ChunkOps::set_biome` for a loaded chunk: forward to storage, then clear
the cache only if the value actually changed; the previous value is
returned. -/
def LoadedChunk.set_biome (c : LoadedChunk) (x y z bi : Nat) :
    Nat × LoadedChunk :=
  let r := c.chunk.set_biome x y z bi
  if bi ≠ r.1 then (r.1, { c with chunk := r.2, cached_init_packets := [] })
  else (r.1, { c with chunk := r.2 })

/-- `ChunkOps::fill_biome_section` for a loaded chunk: forward to storage and
clear the cache unconditionally. -/
def LoadedChunk.fill_biome_section (c : LoadedChunk) (sect_y bi : Nat) :
    LoadedChunk :=
  { c with
    chunk := c.chunk.fill_biome_section sect_y bi
    cached_init_packets := [] }

/-- `LoadedChunk::write_init_packets`: if the cache is empty, assemble and
serialize the initialization packet and store it; then write the cached bytes
to the caller's writer.  The result is the new state, the bytes written, and
whether packet assembly ran. -/
def LoadedChunk.write_init_packets (c : LoadedChunk) (reg : BlockRegistry)
    (pos : ChunkPos) (info : ChunkLayerInfo) :
    LoadedChunk × List Nat × Bool :=
  if c.cached_init_packets = [] then
    let bytes := write_packet (assembleChunkData reg c.chunk pos info)
      info.threshold
    ({ c with cached_init_packets := bytes }, bytes, true)
  else (c, c.cached_init_packets, false)

/-- Look a chunk position up in the index's association-list model of the
hash map. -/
def lookupPos (l : List (ChunkPos × LoadedChunk)) (p : ChunkPos) :
    Option LoadedChunk :=
  match l with
  | [] => none
  | (k, v) :: rest => if k = p then some v else lookupPos rest p

/-- Replace the binding of an occupied position (a no-op when the position is
absent). -/
def setPos (l : List (ChunkPos × LoadedChunk)) (p : ChunkPos)
    (nv : LoadedChunk) : List (ChunkPos × LoadedChunk) :=
  match l with
  | [] => []
  | (k, v) :: rest =>
    if k = p then (k, nv) :: rest else (k, v) :: setPos rest p nv

/-- Remove the binding of a position. -/
def erasePos (l : List (ChunkPos × LoadedChunk)) (p : ChunkPos) :
    List (ChunkPos × LoadedChunk) :=
  match l with
  | [] => []
  | (k, v) :: rest =>
    if k = p then rest else (k, v) :: erasePos rest p

/-- `ChunkIndex`: the mapping of chunk positions to loaded chunks of a
dimension layer, with its configured height. -/
structure ChunkIndex where
  map : List (ChunkPos × LoadedChunk)
  height : Nat

/-- `ChunkIndex::new`: an empty index with the given configured height. -/
def ChunkIndex.new (height : Nat) : ChunkIndex := ⟨[], height⟩

/-- `ChunkIndex::get`. -/
def ChunkIndex.get (idx : ChunkIndex) (pos : ChunkPos) : Option LoadedChunk :=
  lookupPos idx.map pos

/-- `VacantEntry::insert`: create a fresh loaded chunk of the index's height,
`replace` its storage with the incoming chunk (which resizes it), and store
it. -/
def vacantInsert (height : Nat) (chunk : Chunk) : LoadedChunk :=
  ((LoadedChunk.new height).replace chunk).2

/-- `ChunkIndex::insert`: on an occupied entry, `OccupiedEntry::insert`
(i.e. `LoadedChunk::replace` on the stored chunk) returning the previous
storage; on a vacant entry, `VacantEntry::insert`. -/
def ChunkIndex.insert (idx : ChunkIndex) (pos : ChunkPos) (chunk : Chunk) :
    Option Chunk × ChunkIndex :=
  match lookupPos idx.map pos with
  | some lc =>
    let r := lc.replace chunk
    (some r.1, { idx with map := setPos idx.map pos r.2 })
  | none =>
    (none, { idx with map := (pos, vacantInsert idx.height chunk) :: idx.map })

/-- `ChunkIndex::remove`: evict the loaded chunk, yielding its plain
storage. -/
def ChunkIndex.remove (idx : ChunkIndex) (pos : ChunkPos) :
    Option Chunk × ChunkIndex :=
  match lookupPos idx.map pos with
  | some lc => (some lc.into_chunk, { idx with map := erasePos idx.map pos })
  | none => (none, idx)

/-- `Entry::or_default`: on a vacant entry, insert a default (empty) chunk;
on an occupied entry, keep the existing chunk unchanged. -/
def ChunkIndex.or_default (idx : ChunkIndex) (pos : ChunkPos) : ChunkIndex :=
  match lookupPos idx.map pos with
  | some _ => idx
  | none =>
    { idx with map := (pos, vacantInsert idx.height Chunk.new) :: idx.map }

/-- Every loaded chunk held by the index has the index's configured
height. -/
def ChunkIndex.heightInv (idx : ChunkIndex) : Prop :=
  ∀ p lc, (p, lc) ∈ idx.map → lc.height = idx.height

theorem encodeVarInt_ne_nil (n : Nat) : encodeVarInt n ≠ [] := by
  unfold encodeVarInt
  split <;> simp

theorem write_packet_ne_nil (p : ChunkDataS2c) (t : Int) :
    write_packet p t ≠ [] := by
  simp [write_packet, encodeVarInt_ne_nil]

theorem set_height_height (c : Chunk) (h : Nat) :
    (c.set_height h).height = h / 16 * 16 := by
  simp only [Chunk.set_height, Chunk.height, List.length_append,
    List.length_take, List.length_replicate]
  omega

theorem replace_snd_height (lc : LoadedChunk) (c : Chunk) :
    ((lc.replace c).2).height = lc.height := by
  show (c.set_height lc.height).height = lc.height
  rw [set_height_height]
  show lc.chunk.sections.length * 16 / 16 * 16 = lc.chunk.sections.length * 16
  omega

theorem new_loaded_height (h : Nat) :
    (LoadedChunk.new h).height = h / 16 * 16 := by
  simp [LoadedChunk.new, LoadedChunk.height, Chunk.with_height, Chunk.height]

theorem vacantInsert_height (h : Nat) (c : Chunk) :
    (vacantInsert h c).height = h / 16 * 16 := by
  rw [vacantInsert, replace_snd_height, new_loaded_height]

theorem lookupPos_mem {l : List (ChunkPos × LoadedChunk)} {p : ChunkPos}
    {v : LoadedChunk} (h : lookupPos l p = some v) : (p, v) ∈ l := by
  induction l with
  | nil => simp [lookupPos] at h
  | cons a rest ih =>
    obtain ⟨k, vv⟩ := a
    by_cases hk : k = p
    · subst hk
      simp [lookupPos] at h
      subst h
      exact List.mem_cons_self _ _
    · simp [lookupPos, hk] at h
      exact List.mem_cons_of_mem _ (ih h)

theorem lookupPos_setPos_self (l : List (ChunkPos × LoadedChunk))
    (p : ChunkPos) (nv : LoadedChunk) :
    lookupPos (setPos l p nv) p = (lookupPos l p).map fun _ => nv := by
  induction l with
  | nil => simp [lookupPos, setPos]
  | cons a rest ih =>
    obtain ⟨k, vv⟩ := a
    by_cases hk : k = p
    · subst hk
      simp [lookupPos, setPos]
    · simp [lookupPos, setPos, hk, ih]

theorem mem_setPos {x : ChunkPos × LoadedChunk}
    {l : List (ChunkPos × LoadedChunk)} {p : ChunkPos} {nv : LoadedChunk}
    (h : x ∈ setPos l p nv) : x ∈ l ∨ x.2 = nv := by
  induction l with
  | nil => simp [setPos] at h
  | cons a rest ih =>
    obtain ⟨k, vv⟩ := a
    by_cases hk : k = p
    · subst hk
      simp only [setPos, if_pos rfl] at h
      rcases List.mem_cons.mp h with h | h
      · right; rw [h]
      · left; exact List.mem_cons_of_mem _ h
    · simp only [setPos, if_neg hk] at h
      rcases List.mem_cons.mp h with h | h
      · left; rw [h]; exact List.mem_cons_self _ _
      · rcases ih h with h | h
        · left; exact List.mem_cons_of_mem _ h
        · right; exact h

theorem mem_erasePos {x : ChunkPos × LoadedChunk}
    {l : List (ChunkPos × LoadedChunk)} {p : ChunkPos}
    (h : x ∈ erasePos l p) : x ∈ l := by
  induction l with
  | nil => simpa [erasePos] using h
  | cons a rest ih =>
    obtain ⟨k, vv⟩ := a
    by_cases hk : k = p
    · subst hk
      simp only [erasePos, if_pos rfl] at h
      exact List.mem_cons_of_mem _ h
    · simp only [erasePos, if_neg hk] at h
      rcases List.mem_cons.mp h with h | h
      · rw [h]; exact List.mem_cons_self _ _
      · exact List.mem_cons_of_mem _ (ih h)

/-- C1: on a loaded chunk with a non-empty cache, each of setting a differing
block state, setting a differing biome, filling a section's block states,
filling a section's biomes, setting a block entity, clearing a block entity,
and mutating an existing block entity independently leaves the cache empty;
section fills and block-entity set/clear invalidate unconditionally, with no
comparison against the prior value. -/
theorem claim1_invalidation_completeness (c : LoadedChunk)
    (hne : c.cached_init_packets ≠ []) :
    (∀ x y z b, b ≠ c.chunk.block_state x y z →
      ((c.set_block_state x y z b).2).cached_init_packets = []) ∧
    (∀ x y z bi, bi ≠ c.chunk.biome x y z →
      ((c.set_biome x y z bi).2).cached_init_packets = []) ∧
    (∀ sect_y b,
      (c.fill_block_state_section sect_y b).cached_init_packets = []) ∧
    (∀ sect_y bi,
      (c.fill_biome_section sect_y bi).cached_init_packets = []) ∧
    (∀ x y z v,
      ((c.set_block_entity x y z (some v)).2).cached_init_packets = []) ∧
    (∀ x y z,
      ((c.set_block_entity x y z none).2).cached_init_packets = []) ∧
    (∀ x y z, (c.chunk.block_entity x y z).isSome →
      ((c.block_entity_mut x y z).2).cached_init_packets = []) := by
  refine ⟨?_, ?_, ?_, ?_, ?_, ?_, ?_⟩
  · intro x y z b hb
    simp [LoadedChunk.set_block_state, Chunk.set_block_state, hb]
  · intro x y z bi hbi
    simp [LoadedChunk.set_biome, Chunk.set_biome, hbi]
  · intro sect_y b
    rfl
  · intro sect_y bi
    rfl
  · intro x y z v
    rfl
  · intro x y z
    rfl
  · intro x y z hsome
    cases hres : c.chunk.block_entity x y z with
    | none => rw [hres] at hsome; simp at hsome
    | some v => simp [LoadedChunk.block_entity_mut, hres]

/-- C1 witness: on a concrete loaded chunk with non-empty cache, a differing
block-state write, a section fill, a block-entity set and a mutation of an
existing block entity each empty the cache. -/
theorem claim1_invalidation_completeness_witness :
    (((⟨⟨[], [(0, [7])]⟩, 0, [9]⟩ : LoadedChunk).set_block_state 0 0 0
        1).2).cached_init_packets = [] ∧
    (((⟨⟨[], [(0, [7])]⟩, 0, [9]⟩ : LoadedChunk).fill_block_state_section 0
        1).cached_init_packets = []) ∧
    (((⟨⟨[], [(0, [7])]⟩, 0, [9]⟩ : LoadedChunk).set_block_entity 1 0 0
        (some [2])).2).cached_init_packets = [] ∧
    (((⟨⟨[], [(0, [7])]⟩, 0, [9]⟩ : LoadedChunk).block_entity_mut 0 0
        0).2).cached_init_packets = [] := by
  have h := claim1_invalidation_completeness ⟨⟨[], [(0, [7])]⟩, 0, [9]⟩
    (by decide)
  exact ⟨h.1 0 0 0 1 (by decide), h.2.2.1 0 1, h.2.2.2.2.1 1 0 0 [2],
    h.2.2.2.2.2.2 0 0 0 (by decide)⟩

/-- C2: writing the currently stored block state (or biome) back to its own
coordinate returns that old value and leaves the cached initialization bytes
unchanged. -/
theorem claim2_noop_write (c : LoadedChunk) (x y z : Nat) (hx : x < 16)
    (hz : z < 16) (hy : y < c.height) :
    (c.set_block_state x y z (c.chunk.block_state x y z)).1
        = c.chunk.block_state x y z ∧
    ((c.set_block_state x y z
        (c.chunk.block_state x y z)).2).cached_init_packets
        = c.cached_init_packets ∧
    (c.set_biome x y z (c.chunk.biome x y z)).1 = c.chunk.biome x y z ∧
    ((c.set_biome x y z (c.chunk.biome x y z)).2).cached_init_packets
        = c.cached_init_packets := by
  simp [LoadedChunk.set_block_state, LoadedChunk.set_biome,
    Chunk.set_block_state, Chunk.set_biome]

/-- A concrete loaded chunk of height 16 whose cache is non-empty, for the
no-op write witness. -/
def noopChunk : LoadedChunk :=
  { chunk := Chunk.with_height 16, viewer_count := 0,
    cached_init_packets := [9] }

/-- C2 witness: on a concrete loaded chunk of height 16 with a non-empty
cache, rewriting the current block state at (0, 0, 0) returns it and leaves
the cache bytes intact. -/
theorem claim2_noop_write_witness :
    ((noopChunk.set_block_state 0 0 0
        (noopChunk.chunk.block_state 0 0 0)).2).cached_init_packets
      = noopChunk.cached_init_packets :=
  (claim2_noop_write noopChunk 0 0 0 (by decide) (by decide)
    (by decide)).2.1

/-- C3: one call to `write_init_packets` leaves the cache non-empty; a second
call with the same position and layer parameters performs no packet assembly
and writes exactly the bytes the first call wrote. -/
theorem claim3_cached_emit (c : LoadedChunk) (reg : BlockRegistry)
    (pos : ChunkPos) (info : ChunkLayerInfo) :
    ((c.write_init_packets reg pos info).1).cached_init_packets ≠ [] ∧
    ((c.write_init_packets reg pos info).1.write_init_packets reg pos
        info).2.2 = false ∧
    ((c.write_init_packets reg pos info).1.write_init_packets reg pos
        info).2.1 = (c.write_init_packets reg pos info).2.1 := by
  by_cases hc : c.cached_init_packets = [] <;>
    simp [LoadedChunk.write_init_packets, hc, write_packet_ne_nil]

/-- The layer parameters of the cached-emit witness. -/
def emptyInfo : ChunkLayerInfo := ⟨0, 0, by decide, 8, -1⟩

/-- C3 witness: on a freshly created loaded chunk, the first emit populates
the cache and the second emit skips assembly and writes the same bytes. -/
theorem claim3_cached_emit_witness :
    (((LoadedChunk.new 0).write_init_packets ⟨20, fun _ => none⟩ (3, 4)
        emptyInfo).1).cached_init_packets ≠ [] ∧
    (((LoadedChunk.new 0).write_init_packets ⟨20, fun _ => none⟩ (3, 4)
        emptyInfo).1.write_init_packets ⟨20, fun _ => none⟩ (3, 4)
        emptyInfo).2.2 = false ∧
    (((LoadedChunk.new 0).write_init_packets ⟨20, fun _ => none⟩ (3, 4)
        emptyInfo).1.write_init_packets ⟨20, fun _ => none⟩ (3, 4)
        emptyInfo).2.1
      = ((LoadedChunk.new 0).write_init_packets ⟨20, fun _ => none⟩ (3, 4)
        emptyInfo).2.1 :=
  claim3_cached_emit (LoadedChunk.new 0) ⟨20, fun _ => none⟩ (3, 4)
    emptyInfo

/-- C6: `replace` returns the previously held storage, swaps in the incoming
chunk resized to the loaded chunk's height, unconditionally empties the
cache, and leaves the loaded chunk's height unchanged. -/
theorem claim6_replace (lc : LoadedChunk) (c : Chunk) :
    (lc.replace c).1 = lc.chunk ∧
    ((lc.replace c).2).chunk = c.set_height lc.height ∧
    ((lc.replace c).2).cached_init_packets = [] ∧
    ((lc.replace c).2).height = lc.height :=
  ⟨rfl, rfl, rfl, replace_snd_height lc c⟩

/-- C10: `block_entity_mut` returns the payload exactly when one is present
at the coordinate; whenever it returns `some`, the cache is cleared even
though the storage is untouched; whenever it returns `none`, the whole loaded
chunk is left unchanged. -/
theorem claim10_block_entity_mut (c : LoadedChunk) (x y z : Nat) :
    (c.block_entity_mut x y z).1 = c.chunk.block_entity x y z ∧
    ((c.block_entity_mut x y z).1.isSome
        ↔ (c.chunk.block_entity x y z).isSome) ∧
    ((c.chunk.block_entity x y z).isSome →
      ((c.block_entity_mut x y z).2).cached_init_packets = [] ∧
      ((c.block_entity_mut x y z).2).chunk = c.chunk ∧
      ((c.block_entity_mut x y z).2).viewer_count = c.viewer_count) ∧
    (c.chunk.block_entity x y z = none →
      (c.block_entity_mut x y z).2 = c) := by
  cases hres : c.chunk.block_entity x y z <;>
    simp [LoadedChunk.block_entity_mut, hres]

/-- C10 witness: on a concrete loaded chunk holding one block entity at
(0, 0, 0), `block_entity_mut` returns it there and clears the cache, and at
an absent coordinate returns `none` and changes nothing. -/
theorem claim10_block_entity_mut_witness :
    ((⟨⟨[], [(0, [7])]⟩, 0, [9]⟩ : LoadedChunk).block_entity_mut 0 0 0).1
        = some [7] ∧
    (((⟨⟨[], [(0, [7])]⟩, 0, [9]⟩ : LoadedChunk).block_entity_mut 0 0
        0).2).cached_init_packets = [] ∧
    ((⟨⟨[], [(0, [7])]⟩, 0, [9]⟩ : LoadedChunk).block_entity_mut 1 0 0).2
        = ⟨⟨[], [(0, [7])]⟩, 0, [9]⟩ := by
  refine ⟨?_, ?_, ?_⟩
  · exact (claim10_block_entity_mut ⟨⟨[], [(0, [7])]⟩, 0, [9]⟩ 0 0 0).1
  · exact ((claim10_block_entity_mut ⟨⟨[], [(0, [7])]⟩, 0, [9]⟩ 0 0
      0).2.2.1 (by decide)).1
  · exact (claim10_block_entity_mut ⟨⟨[], [(0, [7])]⟩, 0, [9]⟩ 1 0
      0).2.2.2 (by decide)

/-- One viewer-count increment, as a step function for iteration. -/
def incStep (c : LoadedChunk) : LoadedChunk := c.inc_viewer_count

/-- One viewer-count decrement (its state part), as a step function for
iteration. -/
def decStep (c : LoadedChunk) : LoadedChunk := (c.dec_viewer_count).1

theorem incStep_iterate (c : LoadedChunk) (n : Nat)
    (h : c.viewer_count < 2 ^ 32) :
    (incStep^[n] c).viewer_count = (c.viewer_count + n) % 2 ^ 32 := by
  induction n with
  | zero => simpa using (Nat.mod_eq_of_lt h).symm
  | succ n ih =>
    rw [Function.iterate_succ_apply']
    show ((incStep^[n] c).viewer_count + 1) % 2 ^ 32 = _
    rw [ih]
    omega

theorem decStep_iterate (c : LoadedChunk) (n : Nat)
    (h : c.viewer_count < 2 ^ 32) :
    (decStep^[n] c).viewer_count
      = (c.viewer_count + n * (2 ^ 32 - 1)) % 2 ^ 32 := by
  induction n with
  | zero => simpa using (Nat.mod_eq_of_lt h).symm
  | succ n ih =>
    rw [Function.iterate_succ_apply']
    show ((decStep^[n] c).viewer_count + (2 ^ 32 - 1)) % 2 ^ 32 = _
    rw [ih]
    omega

/-- C9: starting from any representable viewer count, N increments followed
by N decrements return the viewer count to its starting value; decrementing
at viewer count zero fails the debug assertion (underflow detected as a
contract violation in debug builds). -/
theorem claim9_viewer_count (c : LoadedChunk) (n : Nat)
    (h : c.viewer_count < 2 ^ 32) :
    (decStep^[n] (incStep^[n] c)).viewer_count = c.viewer_count ∧
    (c.viewer_count = 0 → (c.dec_viewer_count).2 = false) := by
  constructor
  · rw [decStep_iterate _ _ (by rw [incStep_iterate _ _ h]; omega),
      incStep_iterate _ _ h]
    omega
  · intro h0
    simp [LoadedChunk.dec_viewer_count, h0]

/-- C9 witness: three increments then three decrements on a fresh chunk
restore its viewer count, and decrementing the fresh chunk (viewer count 0)
fails the debug assertion. -/
theorem claim9_viewer_count_witness :
    (decStep^[3] (incStep^[3] (LoadedChunk.new 0))).viewer_count
        = (LoadedChunk.new 0).viewer_count ∧
    ((LoadedChunk.new 0).dec_viewer_count).2 = false :=
  ⟨(claim9_viewer_count (LoadedChunk.new 0) 3 (by decide)).1,
    (claim9_viewer_count (LoadedChunk.new 0) 3 (by decide)).2 rfl⟩

/-- A loaded chunk whose viewer count has been incremented twice. -/
def staleViewerChunk : LoadedChunk :=
  ((LoadedChunk.new 0).inc_viewer_count).inc_viewer_count

/-- An index holding `staleViewerChunk` at position (3, 4). -/
def staleViewerIndex : ChunkIndex := ⟨[((3, 4), staleViewerChunk)], 0⟩

/-- C4 counterexample: inserting at an occupied position does NOT reset the
viewer count — at a position whose chunk has viewer count 2, the viewer count
observed after the insert is still 2, i.e. it equals the previous chunk's
viewer count, contradicting the claim that it is not the previous count. -/
theorem claim4_counterexample :
    ((staleViewerIndex.get (3, 4)).map (fun x => x.viewer_count)
        = some 2) ∧
    ((((staleViewerIndex.insert (3, 4) Chunk.new).2).get (3, 4)).map
        (fun x => x.viewer_count) = some 2) := by
  constructor <;> rfl

/-- C4 (amended): inserting at an occupied position returns the previously
stored plain chunk data, but the stored loaded chunk's synchronization
metadata persists: the stored chunk becomes the result of `replace`, so the
viewer count observed at that position after the insert equals the previous
chunk's viewer count, and the cached initialization bytes are cleared. -/
theorem claim4_insert_occupied (idx : ChunkIndex) (pos : ChunkPos) (c : Chunk)
    (lc : LoadedChunk) (h : idx.get pos = some lc) :
    (idx.insert pos c).1 = some lc.chunk ∧
    ((idx.insert pos c).2).get pos = some ((lc.replace c).2) ∧
    ((((idx.insert pos c).2).get pos).map (fun x => x.viewer_count)
        = some lc.viewer_count) ∧
    ((((idx.insert pos c).2).get pos).map (fun x => x.cached_init_packets)
        = some []) := by
  have hl : lookupPos idx.map pos = some lc := h
  refine ⟨?_, ?_, ?_, ?_⟩ <;>
    simp [ChunkIndex.insert, hl, ChunkIndex.get, lookupPos_setPos_self,
      LoadedChunk.replace]

/-- C4 (amended) witness: on the concrete index whose chunk at (3, 4) has
viewer count 2, inserting there returns its storage and keeps viewer count 2
while clearing the cache. -/
theorem claim4_insert_occupied_witness :
    (staleViewerIndex.insert (3, 4) Chunk.new).1
        = some staleViewerChunk.chunk ∧
    ((((staleViewerIndex.insert (3, 4) Chunk.new).2).get (3, 4)).map
        (fun x => x.viewer_count) = some staleViewerChunk.viewer_count) ∧
    ((((staleViewerIndex.insert (3, 4) Chunk.new).2).get (3, 4)).map
        (fun x => x.cached_init_packets) = some []) := by
  have h := claim4_insert_occupied staleViewerIndex (3, 4) Chunk.new
    staleViewerChunk rfl
  exact ⟨h.1, h.2.2.1, h.2.2.2⟩

/-- C5: in an index configured with (section-aligned) height H whose stored
chunks all have height H, inserting plain chunk data of any source height —
directly or via `or_default` on a vacant slot — preserves the invariant, a
chunk looked up right after an insert has height exactly H, and removal (the
remaining index operation that touches the map) preserves it as well. -/
theorem claim5_height_invariant (idx : ChunkIndex) (pos : ChunkPos)
    (c : Chunk) (hH : 16 ∣ idx.height) (hinv : idx.heightInv) :
    ((idx.insert pos c).2).heightInv ∧
    (idx.or_default pos).heightInv ∧
    ((idx.remove pos).2).heightInv ∧
    (∀ lc, ((idx.insert pos c).2).get pos = some lc →
      lc.height = idx.height) := by
  have hv : ∀ ch : Chunk, (vacantInsert idx.height ch).height = idx.height := by
    intro ch
    rw [vacantInsert_height, Nat.div_mul_cancel hH]
  refine ⟨?_, ?_, ?_, ?_⟩
  · cases hl : lookupPos idx.map pos with
    | some lc0 =>
      intro p lc hmem
      simp only [ChunkIndex.insert, hl] at hmem ⊢
      rcases mem_setPos hmem with hm | hm
      · exact hinv p lc hm
      · rw [show lc = (lc0.replace c).2 from hm, replace_snd_height]
        exact hinv pos lc0 (lookupPos_mem hl)
    | none =>
      intro p lc hmem
      simp only [ChunkIndex.insert, hl] at hmem ⊢
      rcases List.mem_cons.mp hmem with hm | hm
      · rw [show lc = vacantInsert idx.height c from congrArg Prod.snd hm]
        exact hv c
      · exact hinv p lc hm
  · cases hl : lookupPos idx.map pos with
    | some lc0 =>
      intro p lc hmem
      simp only [ChunkIndex.or_default, hl] at hmem ⊢
      exact hinv p lc hmem
    | none =>
      intro p lc hmem
      simp only [ChunkIndex.or_default, hl] at hmem ⊢
      rcases List.mem_cons.mp hmem with hm | hm
      · rw [show lc = vacantInsert idx.height Chunk.new from
          congrArg Prod.snd hm]
        exact hv Chunk.new
      · exact hinv p lc hm
  · cases hl : lookupPos idx.map pos with
    | some lc0 =>
      intro p lc hmem
      simp only [ChunkIndex.remove, hl] at hmem ⊢
      exact hinv p lc (mem_erasePos hmem)
    | none =>
      intro p lc hmem
      simp only [ChunkIndex.remove, hl] at hmem ⊢
      exact hinv p lc hmem
  · intro lc hget
    cases hl : lookupPos idx.map pos with
    | some lc0 =>
      simp only [ChunkIndex.insert, hl, ChunkIndex.get,
        lookupPos_setPos_self, Option.map_some', Option.some.injEq] at hget
      rw [← hget, replace_snd_height]
      exact hinv pos lc0 (lookupPos_mem hl)
    | none =>
      simp [ChunkIndex.insert, hl, ChunkIndex.get, lookupPos] at hget
      rw [← hget]
      exact hv c

/-- C5 witness: inserting an empty chunk into a fresh index of height 32
preserves the height invariant, and the chunk stored by that insert has
height exactly 32. -/
theorem claim5_height_invariant_witness :
    (((ChunkIndex.new 32).insert (0, 0) Chunk.new).2).heightInv ∧
    (vacantInsert 32 Chunk.new).height = 32 := by
  have h := claim5_height_invariant (ChunkIndex.new 32) (0, 0) Chunk.new
    (by decide) (fun p lc hm => absurd hm (List.not_mem_nil _))
  exact ⟨h.1, h.2.2.2 (vacantInsert 32 Chunk.new) rfl⟩

/-- The layer parameters of the packet-shape witnesses. -/
def c7info : ChunkLayerInfo := ⟨0, -16, by decide, 8, -1⟩

theorem length_records (reg : BlockRegistry) (ch : Chunk)
    (info : ChunkLayerInfo) (l : List (Nat × Compound)) :
    (l.filterMap (blockEntityRecord reg ch info)).length
      = (l.filter fun e =>
          (reg.block_entity_kind (blockStateAtIdx ch e.1)).isSome).length := by
  induction l with
  | nil => rfl
  | cons a rest ih =>
    cases ht : reg.block_entity_kind (blockStateAtIdx ch a.1) <;>
      simp [List.filterMap_cons, blockEntityRecord, ht, List.filter_cons, ih]

/-- C8: every record of the assembled packet originates from an entry whose
current block state is block-entity-bearing, and there are exactly as many
records as bearing entries — so an entry whose block state is not
block-entity-bearing contributes no record (it is omitted); every bearing
entry is included with its payload; and emitting leaves chunk storage
unchanged, so the omitted entry remains present (filtered at serialization
time, not purged). -/
theorem claim8_stale_filter (reg : BlockRegistry) (lc : LoadedChunk)
    (pos : ChunkPos) (info : ChunkLayerInfo) :
    (∀ r ∈ (assembleChunkData reg lc.chunk pos info).block_entities,
      ∃ idx nbt, (idx, nbt) ∈ lc.chunk.block_entities ∧
        (∃ k, reg.block_entity_kind (blockStateAtIdx lc.chunk idx) = some k ∧
          r.kind = k) ∧
        r.data = nbt) ∧
    (assembleChunkData reg lc.chunk pos info).block_entities.length
      = (lc.chunk.block_entities.filter fun e =>
          (reg.block_entity_kind
            (blockStateAtIdx lc.chunk e.1)).isSome).length ∧
    (∀ idx nbt k, (idx, nbt) ∈ lc.chunk.block_entities →
      reg.block_entity_kind (blockStateAtIdx lc.chunk idx) = some k →
      ∃ r ∈ (assembleChunkData reg lc.chunk pos info).block_entities,
        r.packed_xz = idx % 16 * 16 + idx / 16 % 16 ∧
        r.y = wrapI16 (wrapI16 ((idx / 16 / 16 : Nat) : Int)
          + wrapI16 info.min_y) ∧
        r.kind = k ∧ r.data = nbt) ∧
    ((lc.write_init_packets reg pos info).1).chunk = lc.chunk ∧
    (∀ idx nbt, (idx, nbt) ∈ lc.chunk.block_entities →
      (idx, nbt) ∈
        ((lc.write_init_packets reg pos info).1).chunk.block_entities) := by
  have hchunk : ((lc.write_init_packets reg pos info).1).chunk = lc.chunk := by
    by_cases hc : lc.cached_init_packets = [] <;>
      simp [LoadedChunk.write_init_packets, hc]
  refine ⟨?_, ?_, ?_, hchunk, fun idx nbt hm => hchunk ▸ hm⟩
  · intro r hr
    simp only [assembleChunkData, blockEntityRecord,
      List.mem_filterMap] at hr
    obtain ⟨e, he, hfe⟩ := hr
    rw [Option.map_eq_some'] at hfe
    obtain ⟨k, hk, heq⟩ := hfe
    exact ⟨e.1, e.2, he, ⟨k, hk, by rw [← heq]⟩, by rw [← heq]⟩
  · exact length_records reg lc.chunk info lc.chunk.block_entities
  · intro idx nbt k hmem hk
    refine ⟨⟨idx % 16 * 16 + idx / 16 % 16,
      wrapI16 (wrapI16 ((idx / 16 / 16 : Nat) : Int) + wrapI16 info.min_y),
      k, nbt⟩, ?_, rfl, rfl, rfl, rfl⟩
    simp only [assembleChunkData, List.mem_filterMap]
    exact ⟨(idx, nbt), hmem, by simp [blockEntityRecord, hk]⟩

/-- The block registry of the stale-filter witness: only block state 1 is
block-entity-bearing. -/
def c8reg : BlockRegistry := ⟨20, fun b => if b = 1 then some 9 else none⟩

/-- The loaded chunk of the stale-filter witness: no sections (so every
block state reads as air, id 0), one stale block entity at flattened
coordinate 0, empty cache. -/
def c8chunk : LoadedChunk := ⟨⟨[], [(0, [7])]⟩, 0, []⟩

/-- C8 witness: on the concrete chunk whose only block entity sits on a
non-bearing block state, the record count equals the (zero) count of bearing
entries — the stale entry is omitted — yet the entry is still in storage
after emitting the packet. -/
theorem claim8_stale_filter_witness :
    (assembleChunkData c8reg c8chunk.chunk (3, 4)
        c7info).block_entities.length
      = (c8chunk.chunk.block_entities.filter fun e =>
          (c8reg.block_entity_kind
            (blockStateAtIdx c8chunk.chunk e.1)).isSome).length ∧
    (0, ([7] : Compound)) ∈
      ((c8chunk.write_init_packets c8reg (3, 4)
        c7info).1).chunk.block_entities := by
  have h := claim8_stale_filter c8reg c8chunk (3, 4) c7info
  exact ⟨h.2.1, h.2.2.2.2 0 [7] (by decide)⟩

end Valence
